import Mathlib

/-!
Shallow embedding of the validation / processing pipeline of
`csv_processor.py`, `csv_processor2.py` and `csv_processor_old.py`
(class `CSVProcessor`), together with theorems settling the frozen claims
about the repository.

Modelling conventions:
* A pandas `DataFrame` is a list of column labels together with a list of
  rows (each row a list of cells).  Cells are untyped Python/pandas scalars:
  a string, an integer, or the missing value `NaN`/`None` (modelled as
  `Cell.null`).
* Operations that can raise a Python exception are modelled with
  `Except PyError`.  In particular the pandas comparison `series < k`
  raises `TypeError` whenever the series holds a string (Python refuses
  `str < int`), and attribute lookup of a never-assigned attribute raises
  `AttributeError`.
* In-place mutation (`df.columns = ...`, `drop_duplicates(inplace=True)`,
  `df["full_name"] = ...`) is modelled by explicitly returning the state of
  the caller-held object after the call, next to the function's return
  value.
* File-system effects (moves, writes) are recorded symbolically in a
  per-file result structure; timestamps in archive names are abstracted to
  the destination folder.
-/

deriving instance DecidableEq for Except

/-- Lexicographic order on character lists, by code point; structurally
recursive so that concrete comparisons evaluate.  This is the order Python
`sorted` uses on the ASCII strings occurring here. -/
def charListLt : List Char → List Char → Bool
  | [], [] => false
  | [], _ :: _ => true
  | _ :: _, [] => false
  | a :: as, b :: bs => if a < b then true else if b < a then false else charListLt as bs

/-- Whether a list of strings is sorted in Python order (the order produced
by `sorted` on ASCII strings): each adjacent pair is non-decreasing. -/
def pySortedStrings : List String → Bool
  | [] => true
  | [_] => true
  | a :: b :: rest => (charListLt a.data b.data || a == b) && pySortedStrings (b :: rest)

/-- Python exception kinds that the modelled code can raise. -/
inductive PyError where
  | typeError
  | attributeError
  | valueError
deriving DecidableEq, Repr

/-- A pandas cell: a Python string, a Python integer, or the missing value
(`NaN`/`None`).  Floats do not occur in the claims under study and are not
modelled. -/
inductive Cell where
  | str (s : String)
  | int (n : Int)
  | null
deriving DecidableEq, Repr

/-- Boolean test for `Cell.str`. -/
def Cell.isStr : Cell → Bool
  | .str _ => true
  | _ => false

/-- Boolean test for the missing value; models `pandas.isnull` on one cell. -/
def Cell.isNull : Cell → Bool
  | .null => true
  | _ => false

/-- Models Python `str(x)` as applied by `Series.astype(str)`:
integers print in decimal (with a leading minus sign when negative) and the
missing value prints as the string nan. -/
def pyStrOfCell : Cell → String
  | .str s => s
  | .int n => toString n
  | .null => "nan"

/-- Models Python `str.isdigit` (restricted to ASCII digits, which is all the
source data uses): true iff the string is non-empty and every character is a
decimal digit. -/
def pyIsDigit (s : String) : Bool :=
  !s.isEmpty && s.data.all Char.isDigit

/-- Models pandas `Series.str.lower` on one label (`Char.toLower` lowercases
ASCII letters, which covers the labels in the source and its tests). -/
def pyLower (s : String) : String :=
  ⟨s.data.map Char.toLower⟩

/-- Models pandas str.replace applied with the literal one-character pattern
of a space and the replacement of an underscore, as in the source line
`df.columns.str.lower().str.replace(" ", "_").str.strip()`. -/
def pyReplaceSpaceUnderscore (s : String) : String :=
  ⟨s.data.map (fun c => if c = ' ' then '_' else c)⟩

/-- Characters removed by Python `str.strip()` (the ASCII whitespace set). -/
def pyIsSpaceChar (c : Char) : Bool :=
  c = ' ' || c = '\t' || c = '\n' || c = '\r' || c = '\x0b' || c = '\x0c'

/-- Models Python `str.strip()`: drop leading and trailing whitespace. -/
def pyStrip (s : String) : String :=
  ⟨((s.data.dropWhile pyIsSpaceChar).reverse.dropWhile pyIsSpaceChar).reverse⟩

/-- Column-name normalization of `validate_data`
(`csv_processor.py:116-118`): lowercase, then replace every space by an
underscore, then strip surrounding whitespace — in exactly that order. -/
def normalizeColumn (s : String) : String :=
  pyStrip (pyReplaceSpaceUnderscore (pyLower s))

/-- The validation report built by `validate_data` — a Python dict whose keys
are drawn from a closed set; an absent key is `none`. -/
structure Report where
  missing_required_columns : Option (List String)
  extra_columns : Option (List String)
  missing_values : Option (List Nat)
  non_integer_age : Option (List Cell)
  age_outliers : Option (List Cell)
  duplicates : Option Nat
deriving DecidableEq, Repr

/-- The empty validation report (`validation_report = {}` at entry). -/
def Report.empty : Report :=
  ⟨none, none, none, none, none, none⟩

/-- A pandas DataFrame: ordered column labels and ordered rows of cells.
Well-formed frames have every row of the same length as the label list. -/
structure DataFrame where
  cols : List String
  rows : List (List Cell)
deriving DecidableEq, Repr

/-- Well-formedness of a frame: each row has one cell per column. -/
def DataFrame.WF (df : DataFrame) : Prop :=
  ∀ r ∈ df.rows, r.length = df.cols.length

instance (df : DataFrame) : Decidable df.WF :=
  inferInstanceAs (Decidable (∀ r ∈ df.rows, r.length = df.cols.length))

/-- Models the label selection `df[name]`: for each row, the cell paired with
the first column whose label equals `name` (frames reaching this operation in
the source always contain the label). -/
def getCol (df : DataFrame) (name : String) : List Cell :=
  df.rows.map (fun r =>
    (((df.cols.zip r).find? (fun p => p.1 == name)).map Prod.snd).getD Cell.null)

/-- Models `df.loc[:, df.columns.isin(keep)]` (`csv_processor.py:128`):
keep, in order, exactly the columns whose label is in `keep`, producing a new
frame (a copy — the caller's object is not affected). -/
def pruneTo (df : DataFrame) (keep : List String) : DataFrame :=
  ⟨df.cols.filter (fun c => keep.contains c),
   df.rows.map (fun r => ((df.cols.zip r).filter (fun p => keep.contains p.1)).map Prod.snd)⟩

/-- The required columns, in the order of the literal
`set(["first_name", "last_name", "age"])` (`csv_processor.py:119`). -/
def requiredList : List String :=
  ["first_name", "last_name", "age"]

/-- Models `list(a.difference(b))` on Python sets of strings, where `a` is
given by the list `xs` (first occurrences) and `b` by `ys`.  CPython lays a
set out in hash order, which is randomized per process, so the order of the
resulting Python list is unspecified; this model uses the first-occurrence
order of `xs`, one realizable layout.  Theorems below rely only on the
membership of this list, except where a claim asserts a specific (sorted)
order — which no layout of a CPython set guarantees. -/
def pySetDiffList (xs ys : List String) : List String :=
  (xs.eraseDups).filter (fun c => !ys.contains c)

/-- Models `set(xs) > set(req)` (proper superset, `csv_processor.py:127`). -/
def pyStrictSuperset (xs req : List String) : Bool :=
  req.all (fun c => xs.contains c) && xs.any (fun c => !req.contains c)

/-- Models `c < k` for a cell under pandas comparison of an `age` column with
an integer scalar: integers compare numerically, the missing value compares
false, and a string raises `TypeError` (Python refuses `str < int`). -/
def cellLtInt (c : Cell) (k : Int) : Except PyError Bool :=
  match c with
  | .int n => .ok (decide (n < k))
  | .null => .ok false
  | .str _ => .error .typeError

/-- Models `c > k` for a cell, as `cellLtInt`. -/
def cellGtInt (c : Cell) (k : Int) : Except PyError Bool :=
  match c with
  | .int n => .ok (decide (n > k))
  | .null => .ok false
  | .str _ => .error .typeError

/-- Models `(df["age"] < 0).any() or (df["age"] > 120).any()` together with
the selection `df.loc[(df["age"] < 0) | (df["age"] > 120), "age"]`
(`csv_processor.py:143-146`).  Both vectorized comparisons raise `TypeError`
as soon as the column holds any string; when no comparison raises, the
short-circuit of the Python `or` is immaterial because the second comparison
then cannot raise either, so the two comparisons are simply both taken. -/
def ageOutlierCheck (age : List Cell) : Except PyError (Option (List Cell)) := do
  let lt ← age.mapM (fun c => cellLtInt c 0)
  let gt ← age.mapM (fun c => cellGtInt c 120)
  if lt.any id || gt.any id then
    pure (some ((((age.zip lt).zip gt).filter (fun p => p.1.2 || p.2)).map (fun p => p.1.1)))
  else
    pure none

/-- Models `df.duplicated()` with the default `keep="first"` given the seen
rows so far: a row is flagged iff an earlier row equals it. -/
def duplicatedFlagsAux (seen : List (List Cell)) : List (List Cell) → List Bool
  | [] => []
  | r :: rs => seen.contains r :: duplicatedFlagsAux (r :: seen) rs

/-- Models `df.duplicated()` (default `keep="first"`). -/
def duplicatedFlags (rows : List (List Cell)) : List Bool :=
  duplicatedFlagsAux [] rows

/-- Models `df.drop_duplicates()` (default `keep="first"`): keep exactly the
rows not flagged by `duplicatedFlags`. -/
def dropDuplicates (rows : List (List Cell)) : List (List Cell) :=
  ((rows.zip (duplicatedFlags rows)).filter (fun p => !p.2)).map Prod.fst

/-- Outcome of the part of `validate_data` shared verbatim by all three
drafts (`csv_processor.py:115-146`, `csv_processor2.py:95-114`,
`csv_processor_old.py:27-46`): everything before the duplicate handling.
`df1` is the caller-held object after its columns were renamed in place;
`df2` is the local frame after the optional pruning (a fresh copy exactly
when extra columns were present, otherwise an alias of `df1`). -/
inductive PreVal where
  | raised (e : PyError) (df1 df2 : DataFrame)
  | rejected (rep : Report) (df1 : DataFrame)
  | checked (rep : Report) (df1 df2 : DataFrame) (hasExtras : Bool)

/-- Steps 1–6 of `validate_data`, identical in the three drafts:
normalize column names (mutating the caller's frame), reject on missing
required columns, prune extra columns (recording
`list(set(df.columns).difference(required))` computed on the already pruned
frame, as the source does), record missing-value counts for the name
columns, record non-digit age values, and run the age range check (which can
raise `TypeError`).  The source inserts each report key under its own
condition into an initially empty dict; the resulting dict is gathered here
into one record whose fields carry exactly those insertion conditions. -/
def validatePre (df : DataFrame) : PreVal :=
  let cols := df.cols.map normalizeColumn
  let df1 : DataFrame := ⟨cols, df.rows⟩
  if requiredList.all (fun c => cols.contains c) then
    let hasExtras := pyStrictSuperset cols requiredList
    let df2 := if hasExtras then pruneTo df1 requiredList else df1
    let fn := getCol df2 "first_name"
    let ln := getCol df2 "last_name"
    let age := getCol df2 "age"
    match ageOutlierCheck age with
    | .error e => .raised e df1 df2
    | .ok outliers =>
      .checked
        { missing_required_columns := none
          extra_columns :=
            if hasExtras then some (pySetDiffList df2.cols requiredList) else none
          missing_values :=
            if fn.any Cell.isNull || ln.any Cell.isNull then
              some [fn.countP Cell.isNull, ln.countP Cell.isNull]
            else none
          non_integer_age :=
            if age.all (fun c => pyIsDigit (pyStrOfCell c)) then none
            else some (age.filter (fun c => !pyIsDigit (pyStrOfCell c)))
          age_outliers := outliers
          duplicates := none }
        df1 df2 hasExtras
  else
    .rejected
      { missing_required_columns := some (pySetDiffList requiredList cols)
        extra_columns := none
        missing_values := none
        non_integer_age := none
        age_outliers := none
        duplicates := none }
      df1

/-- Result of one call to `validate_data`.  `verdict` is the Python return
value (or the escaping exception); `finalTable` is the local frame at the
end of the call (the frame the later checks actually validated);
`callerTable` is the caller-held object after the call, reflecting the
in-place column rename and — exactly when no pruning copy was made — the
in-place duplicate removal. -/
structure VResult where
  verdict : Except PyError (Bool × Report)
  finalTable : DataFrame
  callerTable : DataFrame
deriving Repr

/-- `CSVProcessor.validate_data` of `csv_processor.py` (lines 115–153).  The
duplicate step counts `df.duplicated().sum()` first, then drops duplicates
in place, and records the count. -/
def validateData (df : DataFrame) : VResult :=
  match validatePre df with
  | .raised e df1 df2 =>
      { verdict := .error e, finalTable := df2, callerTable := df1 }
  | .rejected rep df1 =>
      { verdict := .ok (false, rep), finalTable := df1, callerTable := df1 }
  | .checked rep df1 df2 hasExtras =>
      let flags := duplicatedFlags df2.rows
      if flags.any id then
        let duplicateCount := flags.count true
        let df3 : DataFrame := ⟨df2.cols, dropDuplicates df2.rows⟩
        let rep2 := { rep with duplicates := some duplicateCount }
        { verdict := .ok (true, rep2), finalTable := df3,
          callerTable := if hasExtras then df1 else df3 }
      else
        { verdict := .ok (true, rep), finalTable := df2,
          callerTable := if hasExtras then df1 else df2 }

/-- `CSVProcessor.validate_data` of `csv_processor2.py` (lines 95–121).  The
only difference from `csv_processor.py` is the duplicate step: it first
drops duplicates in place and then records `int(df.duplicated().sum())`
computed on the already deduplicated frame. -/
def validateData2 (df : DataFrame) : VResult :=
  match validatePre df with
  | .raised e df1 df2 =>
      { verdict := .error e, finalTable := df2, callerTable := df1 }
  | .rejected rep df1 =>
      { verdict := .ok (false, rep), finalTable := df1, callerTable := df1 }
  | .checked rep df1 df2 hasExtras =>
      let flags := duplicatedFlags df2.rows
      if flags.any id then
        let df3 : DataFrame := ⟨df2.cols, dropDuplicates df2.rows⟩
        let rep2 := { rep with duplicates := some ((duplicatedFlags df3.rows).count true) }
        { verdict := .ok (true, rep2), finalTable := df3,
          callerTable := if hasExtras then df1 else df3 }
      else
        { verdict := .ok (true, rep), finalTable := df2,
          callerTable := if hasExtras then df1 else df2 }

/-- `CSVProcessor.validate_data` of `csv_processor_old.py` (lines 26–53),
textually identical to the one of `csv_processor2.py`. -/
def validateDataOld (df : DataFrame) : VResult :=
  match validatePre df with
  | .raised e df1 df2 =>
      { verdict := .error e, finalTable := df2, callerTable := df1 }
  | .rejected rep df1 =>
      { verdict := .ok (false, rep), finalTable := df1, callerTable := df1 }
  | .checked rep df1 df2 hasExtras =>
      let flags := duplicatedFlags df2.rows
      if flags.any id then
        let df3 : DataFrame := ⟨df2.cols, dropDuplicates df2.rows⟩
        let rep2 := { rep with duplicates := some ((duplicatedFlags df3.rows).count true) }
        { verdict := .ok (true, rep2), finalTable := df3,
          callerTable := if hasExtras then df1 else df3 }
      else
        { verdict := .ok (true, rep), finalTable := df2,
          callerTable := if hasExtras then df1 else df2 }

/-- Models the elementwise pandas addition used for
`df["first_name"] + " " + df["last_name"]` (`csv_processor.py:69`): string
concatenation, with pandas masking the missing value so that `NaN` propagates
instead of raising, while an integer operand raises `TypeError`
(no `int + str` in Python). -/
def pyAddCell (a b : Cell) : Except PyError Cell :=
  match a, b with
  | .null, _ => .ok .null
  | _, .null => .ok .null
  | .str s, .str t => .ok (.str (s ++ t))
  | _, _ => .error .typeError

/-- Models Python `str.title()` on the labels produced by the source: a
letter that starts a word (follows a non-letter or the start) is uppercased,
every other letter is lowercased. -/
def pyTitle (s : String) : String :=
  ⟨(s.data.foldl
      (fun (acc : List Char × Bool) c =>
        let out := if c.isAlpha then (if acc.2 then c.toLower else c.toUpper) else c
        (acc.1 ++ [out], c.isAlpha))
      ([], false)).1⟩

/-- Models `column.replace("_", " ").title()` (`csv_processor.py:70`). -/
def retitleColumn (s : String) : String :=
  pyTitle ⟨s.data.map (fun c => if c = '_' then ' ' else c)⟩

/-- Models the column assignment `df[name] = vals`: overwrite the column in
place when the label exists, otherwise append it as the last column. -/
def setCol (df : DataFrame) (name : String) (vals : List Cell) : DataFrame :=
  match df.cols.findIdx? (fun c => c == name) with
  | some i => ⟨df.cols, (df.rows.zip vals).map (fun p => p.1.set i p.2)⟩
  | none => ⟨df.cols ++ [name], (df.rows.zip vals).map (fun p => p.1 ++ [p.2])⟩

/-- `CSVProcessor.process_data` (`csv_processor.py:54-71`): build the
`full_name` column as `first_name + " " + last_name` (left to right, so the
space is appended to the first name first), assign it, then retitle every
column label in place, and return the (mutated) frame. -/
def processData (df : DataFrame) : Except PyError DataFrame := do
  let fn := getCol df "first_name"
  let ln := getCol df "last_name"
  let full ← (fn.zip ln).mapM (fun p => do
    let x ← pyAddCell p.1 (Cell.str " ")
    pyAddCell x p.2)
  let dfFull := setCol df "full_name" full
  pure ⟨dfFull.cols.map retitleColumn, dfFull.rows⟩

/-- The caller-held frame after a call to `process_data`: the function
mutates its argument in place and returns the same object, so on success the
caller sees the returned frame; when the addition raises, the assignment of
`full_name` never happened and the caller's frame is unchanged. -/
def processDataCaller (df : DataFrame) : DataFrame :=
  match processData df with
  | .ok out => out
  | .error _ => df

/-- The `CSVProcessor` instance state.  `__init__`
(`csv_processor.py:20-52`) validates `input_dir` and stores the four
configured directories; it never assigns an `error_dir` attribute, so
`error_dir` is `none` for every instance the constructor can produce, and
reading `self.error_dir` then raises `AttributeError`. -/
structure Processor where
  input_dir : String
  output_dir : String
  processed_dir : String
  metadata_dir : String
  error_dir : Option String
deriving DecidableEq, Repr

/-- `CSVProcessor.__init__`: store the four directories; no `error_dir`. -/
def mkProcessor (i o pr m : String) : Processor :=
  ⟨i, o, pr, m, none⟩

/-- One input file as the orchestrator sees it: either its bytes cannot be
read or parsed into a frame (the `open`/`read_csv` of
`csv_processor.py:259-266` raises), or it parses into a frame. -/
inductive FileInput where
  | unreadable
  | table (df : DataFrame)
deriving Repr

/-- The per-file metadata artifact written by `save_metadata`
(`csv_processor.py:292-300`).  The archived path is abstracted to its
destination folder (the timestamp prefix of the new name is not modelled). -/
structure Metadata where
  file_name : String
  num_records : Nat
  validation_report : Report
deriving DecidableEq, Repr

/-- The observable outcome of processing one file inside the loop of
`process_all_files` (`csv_processor.py:255-304`): the frame appended to the
batch result (if any), the transformed frame written to the output directory
(if any), the folder the source file was moved into (`none` when the file
stays in the input directory), the per-file metadata artifact (if written),
and whether the per-file exception handler swallowed and logged a failure. -/
structure FileResult where
  appendedDf : Option DataFrame
  outputDf : Option DataFrame
  movedTo : Option String
  metadataWritten : Option Metadata
  failedLogged : Bool
deriving DecidableEq, Repr

/-- Outcome when the per-file `try` block raised: the exception is caught at
the file boundary and logged; nothing was appended, written, or moved. -/
def failedResult : FileResult :=
  ⟨none, none, none, none, true⟩

/-- One iteration of the loop of `process_all_files`
(`csv_processor.py:255-304`).  Encoding detection and CSV parsing are
abstracted into the `FileInput`; file moves and writes are modelled as
succeeding (file-system faults other than an unreadable input are outside
the claims under study).  On a rejected verdict the code reads
`self.error_dir`, which `__init__` never assigned, so that branch raises
`AttributeError` into the per-file handler whenever `error_dir` is `none`. -/
def processFile (p : Processor) (fi : FileInput) : FileResult :=
  match fi with
  | .unreadable => failedResult
  | .table df =>
    let v := validateData df
    match v.verdict with
    | .error _ => failedResult
    | .ok (isValid, report) =>
      if isValid then
        match processData v.callerTable with
        | .error _ => failedResult
        | .ok df2 =>
          ⟨some df2, some df2, some p.processed_dir,
           some ⟨p.processed_dir, df2.rows.length, report⟩, false⟩
      else
        match p.error_dir with
        | none => failedResult
        | some d =>
          ⟨none, none, some d, some ⟨d, v.callerTable.rows.length, report⟩, false⟩

/-- Models `pd.concat(dataframes, ignore_index=True)`
(`csv_processor.py:309`): raises `ValueError` on an empty list of frames;
otherwise concatenates the rows (the accepted frames of one batch share
their column set, which is the only case the source can reach). -/
def pdConcatIgnoreIndex (dfs : List DataFrame) : Except PyError DataFrame :=
  match dfs with
  | [] => .error .valueError
  | d :: ds => .ok ⟨d.cols, ((d :: ds).map DataFrame.rows).flatten⟩

/-- The outcome of one call to `process_all_files`: the per-file outcomes in
discovery order, and what the call itself returns to its caller. -/
structure BatchResult where
  fileResults : List FileResult
  finalReturn : Except PyError DataFrame
deriving Repr

/-- `CSVProcessor.process_all_files` (`csv_processor.py:230-309`).  Each
file is handled inside its own `try`/`except`, so the per-file outcomes are
exactly the map of `processFile` over the discovered files.  After the loop,
line 306 calls `self.save_metadata_collection(...)`; the `CSVProcessor`
class defines no such method and the instance has no such attribute, so the
attribute lookup raises `AttributeError` outside every `try` block and the
call never reaches the `pd.concat` return on line 309. -/
def processAllFiles (p : Processor) (files : List FileInput) : BatchResult :=
  ⟨files.map (processFile p), .error .attributeError⟩

/-! ### Auxiliary lemmas about the embedded pandas operations -/

/-- The age range predicate of the claim, on one numeric or missing cell:
outside the interval from 0 to 120.  Strings are not covered (the pandas
comparison raises on them). -/
def ageOutlier : Cell → Bool
  | .int n => decide (n < 0) || decide (120 < n)
  | _ => false

/-- The canonical image of one column-name character under the code's
normalization: a space becomes an underscore, letters are lowercased,
everything else (hyphens, tabs, underscores) is untouched. -/
def charCanon (c : Char) : Char :=
  if c.toLower = ' ' then '_' else c.toLower

/-- The report transformation separating the drafts: keep every entry but
replace a recorded duplicates count by 0. -/
def zeroDupReport (r : Report) : Report :=
  { r with duplicates := r.duplicates.map (fun _ => 0) }

/-- Reference recursion for `keep="first"` deduplication with an explicit
list of already seen rows. -/
def keepFirstAux (seen : List (List Cell)) : List (List Cell) → List (List Cell)
  | [] => []
  | r :: rs => if seen.contains r then keepFirstAux seen rs else r :: keepFirstAux (r :: seen) rs

theorem duplicatedFlagsAux_length (seen : List (List Cell)) (rows : List (List Cell)) :
    (duplicatedFlagsAux seen rows).length = rows.length := by
  induction rows generalizing seen with
  | nil => rfl
  | cons r rs ih => simp [duplicatedFlagsAux, ih]

theorem mem_cons_iff_of_mem {r : List Cell} {seen : List (List Cell)} (h : r ∈ seen) :
    ∀ x, x ∈ r :: seen ↔ x ∈ seen := by
  intro x
  constructor
  · intro hx
    rcases List.mem_cons.mp hx with rfl | hx
    · exact h
    · exact hx
  · intro hx
    exact List.mem_cons.mpr (Or.inr hx)

theorem duplicatedFlagsAux_congr (rows : List (List Cell)) (seen seen' : List (List Cell))
    (h : ∀ x, x ∈ seen ↔ x ∈ seen') :
    duplicatedFlagsAux seen rows = duplicatedFlagsAux seen' rows := by
  induction rows generalizing seen seen' with
  | nil => rfl
  | cons r rs ih =>
    simp only [duplicatedFlagsAux]
    have h1 : seen.contains r = seen'.contains r := by
      simp only [List.contains, List.elem_eq_mem]
      exact decide_eq_decide.mpr (h r)
    rw [h1]
    congr 1
    refine ih _ _ ?_
    intro x
    simp only [List.mem_cons]
    rw [h x]

theorem dropDup_aux_eq_keepFirstAux (rows seen : List (List Cell)) :
    ((rows.zip (duplicatedFlagsAux seen rows)).filter (fun p => !p.2)).map Prod.fst
      = keepFirstAux seen rows := by
  induction rows generalizing seen with
  | nil => rfl
  | cons r rs ih =>
    by_cases h : r ∈ seen
    · have hc : duplicatedFlagsAux (r :: seen) rs = duplicatedFlagsAux seen rs :=
        duplicatedFlagsAux_congr rs _ _ (mem_cons_iff_of_mem h)
      simp [duplicatedFlagsAux, keepFirstAux, h, hc, ih]
    · simp [duplicatedFlagsAux, keepFirstAux, h, ih]

theorem dropDuplicates_eq_keepFirstAux (rows : List (List Cell)) :
    dropDuplicates rows = keepFirstAux [] rows := by
  simpa [dropDuplicates, duplicatedFlags] using dropDup_aux_eq_keepFirstAux rows []

theorem eraseDups_loop_eq_keepFirstAux (rows acc : List (List Cell)) :
    List.eraseDups.loop rows acc = acc.reverse ++ keepFirstAux acc rows := by
  induction rows generalizing acc with
  | nil => simp [List.eraseDups.loop, keepFirstAux]
  | cons r rs ih =>
    by_cases h : r ∈ acc
    · simp only [List.eraseDups.loop, keepFirstAux]
      rw [show acc.elem r = true from by simpa [List.elem_iff] using h]
      simp [ih, h]
    · simp only [List.eraseDups.loop, keepFirstAux]
      rw [show acc.elem r = false from by
        simp only [Bool.eq_false_iff, ne_eq, List.elem_iff]; exact h]
      simp only [ih (r :: acc), h]
      simp [h]

theorem dropDuplicates_eq_eraseDups (rows : List (List Cell)) :
    dropDuplicates rows = rows.eraseDups := by
  rw [dropDuplicates_eq_keepFirstAux, List.eraseDups, eraseDups_loop_eq_keepFirstAux]
  simp

theorem keepFirstAux_length_add_count (seen : List (List Cell)) (rows : List (List Cell)) :
    (keepFirstAux seen rows).length + (duplicatedFlagsAux seen rows).count true
      = rows.length := by
  induction rows generalizing seen with
  | nil => rfl
  | cons r rs ih =>
    by_cases h : r ∈ seen
    · have hc : duplicatedFlagsAux (r :: seen) rs = duplicatedFlagsAux seen rs :=
        duplicatedFlagsAux_congr rs _ _ (mem_cons_iff_of_mem h)
      have := ih seen
      simp only [keepFirstAux, duplicatedFlagsAux, hc] at *
      simp [h] at *
      omega
    · have := ih (r :: seen)
      simp only [keepFirstAux, duplicatedFlagsAux] at *
      simp [h] at *
      omega

theorem dropDuplicates_length_add_count (rows : List (List Cell)) :
    (dropDuplicates rows).length + (duplicatedFlags rows).count true = rows.length := by
  rw [dropDuplicates_eq_keepFirstAux]
  exact keepFirstAux_length_add_count [] rows

theorem contains_eq_true_of_mem {r : List Cell} {seen : List (List Cell)} (h : r ∈ seen) :
    seen.contains r = true := by
  simp [List.contains, List.elem_eq_mem, h]

theorem contains_eq_false_of_not_mem {r : List Cell} {seen : List (List Cell)} (h : r ∉ seen) :
    seen.contains r = false := by
  simp [List.contains, List.elem_eq_mem, h]

theorem keepFirstAux_nodup_and_not_seen (seen : List (List Cell)) (rows : List (List Cell)) :
    (keepFirstAux seen rows).Nodup ∧ ∀ x ∈ keepFirstAux seen rows, x ∉ seen := by
  induction rows generalizing seen with
  | nil => simp [keepFirstAux]
  | cons r rs ih =>
    by_cases h : r ∈ seen
    · rw [keepFirstAux, if_pos (contains_eq_true_of_mem h)]
      exact ih seen
    · rw [keepFirstAux, if_neg (by rw [contains_eq_false_of_not_mem h]; simp)]
      obtain ⟨hnd, hns⟩ := ih (r :: seen)
      have hns' : ∀ x ∈ keepFirstAux (r :: seen) rs, x ∉ seen := by
        intro x hx hmem
        exact hns x hx (List.mem_cons.mpr (Or.inr hmem))
      have hr : r ∉ keepFirstAux (r :: seen) rs := by
        intro hmem
        exact hns r hmem (List.mem_cons.mpr (Or.inl rfl))
      refine ⟨List.nodup_cons.mpr ⟨hr, hnd⟩, ?_⟩
      intro x hx
      rcases List.mem_cons.mp hx with rfl | hx
      · exact h
      · exact hns' x hx

theorem dropDuplicates_nodup (rows : List (List Cell)) : (dropDuplicates rows).Nodup := by
  rw [dropDuplicates_eq_keepFirstAux]
  exact (keepFirstAux_nodup_and_not_seen [] rows).1

theorem nodup_of_flagsAux_count_zero (rows seen : List (List Cell))
    (h : (duplicatedFlagsAux seen rows).count true = 0) :
    rows.Nodup ∧ ∀ x ∈ rows, x ∉ seen := by
  induction rows generalizing seen with
  | nil => simp
  | cons r rs ih =>
    by_cases hc : r ∈ seen
    · exfalso
      rw [duplicatedFlagsAux, contains_eq_true_of_mem hc] at h
      simp [List.count_cons] at h
    · rw [duplicatedFlagsAux, contains_eq_false_of_not_mem hc] at h
      have htail : (duplicatedFlagsAux (r :: seen) rs).count true = 0 := by
        simpa [List.count_cons] using h
      obtain ⟨hnd, hns⟩ := ih (r :: seen) htail
      have hrs : r ∉ rs := by
        intro hmem
        exact hns r hmem (List.mem_cons.mpr (Or.inl rfl))
      refine ⟨List.nodup_cons.mpr ⟨hrs, hnd⟩, ?_⟩
      intro x hx
      rcases List.mem_cons.mp hx with rfl | hx
      · exact hc
      · intro hmem
        exact hns x hx (List.mem_cons.mpr (Or.inr hmem))

theorem count_true_flags_eq_zero_of_nodup (rows : List (List Cell)) (h : rows.Nodup) :
    (duplicatedFlags rows).count true = 0 := by
  have aux : ∀ (l : List (List Cell)) (seen : List (List Cell)), l.Nodup →
      (∀ x ∈ l, x ∉ seen) → (duplicatedFlagsAux seen l).count true = 0 := by
    intro l
    induction l with
    | nil => intro seen _ _; rfl
    | cons r rs ih =>
      intro seen hnd hns
      rw [duplicatedFlagsAux,
        contains_eq_false_of_not_mem (hns r (List.mem_cons.mpr (Or.inl rfl)))]
      have htail := ih (r :: seen) (List.nodup_cons.mp hnd).2 ?_
      · simpa [List.count_cons] using htail
      · intro x hx hmem
        rcases List.mem_cons.mp hmem with rfl | hmem
        · exact (List.nodup_cons.mp hnd).1 hx
        · exact hns x (List.mem_cons.mpr (Or.inr hx)) hmem
  exact aux rows [] h (by simp)

theorem any_duplicatedFlags_of_not_nodup (rows : List (List Cell)) (h : ¬ rows.Nodup) :
    (duplicatedFlags rows).any id = true := by
  by_contra hc
  simp only [Bool.not_eq_true, List.any_eq_false] at hc
  have : (duplicatedFlags rows).count true = 0 := by
    rw [List.count_eq_zero]
    intro hmem
    exact absurd (hc true hmem) (by simp)
  exact h (nodup_of_flagsAux_count_zero rows [] this).1

theorem count_true_flags_dropDuplicates (rows : List (List Cell)) :
    (duplicatedFlags (dropDuplicates rows)).count true = 0 :=
  count_true_flags_eq_zero_of_nodup _ (dropDuplicates_nodup rows)

theorem list_mapM_ok_of_forall {α β : Type} (f : α → Except PyError β) (g : α → β)
    (l : List α) (h : ∀ a ∈ l, f a = .ok (g a)) :
    l.mapM f = .ok (l.map g) := by
  induction l with
  | nil => rfl
  | cons a as ih =>
    rw [List.mapM_cons, h a (List.mem_cons.mpr (Or.inl rfl))]
    rw [ih (fun x hx => h x (List.mem_cons.mpr (Or.inr hx)))]
    rfl

theorem list_mapM_ok_length {α β : Type} (f : α → Except PyError β)
    (l : List α) (r : List β) (h : l.mapM f = .ok r) :
    r.length = l.length := by
  induction l generalizing r with
  | nil => simp only [List.mapM_nil] at h; cases h; rfl
  | cons a as ih =>
    rw [List.mapM_cons] at h
    cases hfa : f a with
    | error e => rw [hfa] at h; simp [Bind.bind, Except.bind] at h
    | ok b =>
      rw [hfa] at h
      cases hrest : as.mapM f with
      | error e =>
        rw [hrest] at h
        simp [Bind.bind, Except.bind, Pure.pure, Except.pure] at h
      | ok bs =>
        rw [hrest] at h
        simp only [Bind.bind, Except.bind, Pure.pure, Except.pure, Except.ok.injEq] at h
        subst h
        simp [ih bs hrest]

theorem zip_filter_reconstruct (keepP : String → Bool) :
    ∀ (cols : List String) (r : List Cell), r.length = cols.length →
    (cols.filter keepP).zip (((cols.zip r).filter (fun p => keepP p.1)).map Prod.snd)
      = (cols.zip r).filter (fun p => keepP p.1) := by
  intro cols
  induction cols with
  | nil =>
    intro r h
    simp
  | cons c cs ih =>
    intro r h
    cases r with
    | nil => simp at h
    | cons v vs =>
      simp only [List.length_cons] at h
      by_cases hk : keepP c
      · simp only [List.zip_cons_cons, List.filter_cons, hk, if_true, List.map_cons,
          List.zip_cons_cons]
        rw [ih vs (by omega)]
      · simp only [List.zip_cons_cons, List.filter_cons, hk]
        simp only [Bool.false_eq_true, if_false]
        rw [ih vs (by omega)]

theorem find_of_filter_superset {α : Type} (p q : α → Bool)
    (himp : ∀ a, q a = true → p a = true) :
    ∀ l : List α, (l.filter p).find? q = l.find? q := by
  intro l
  induction l with
  | nil => rfl
  | cons a as ih =>
    by_cases hq : q a
    · have hp := himp a hq
      simp [List.filter_cons, hp, List.find?_cons, hq, ih]
    · by_cases hp : p a
      · simp only [List.filter_cons, hp, if_true]
        rw [List.find?_cons_of_neg _ (by simp [hq]), List.find?_cons_of_neg _ (by simp [hq])]
        exact ih
      · simp only [List.filter_cons, hp]
        simp only [Bool.false_eq_true, if_false]
        rw [List.find?_cons_of_neg _ (by simp [hq])]
        exact ih

theorem getCol_pruneTo (df : DataFrame) (hWF : df.WF) (keep : List String) (n : String)
    (hn : keep.contains n = true) :
    getCol (pruneTo df keep) n = getCol df n := by
  unfold getCol pruneTo
  simp only [List.map_map]
  refine List.map_congr_left ?_
  intro r hr
  simp only [Function.comp_apply]
  rw [zip_filter_reconstruct _ df.cols r (hWF r hr)]
  rw [find_of_filter_superset _ _ ?_ (df.cols.zip r)]
  intro p hbeq
  have : p.1 = n := by simpa using hbeq
  rw [this]
  exact hn

/-! ### Inversion lemmas for `validatePre` -/

theorem validatePre_rejected_inv (df : DataFrame) (rep : Report) (df1 : DataFrame)
    (h : validatePre df = .rejected rep df1) :
    requiredList.all (fun c => (df.cols.map normalizeColumn).contains c) = false ∧
    df1 = ⟨df.cols.map normalizeColumn, df.rows⟩ ∧
    rep = { missing_required_columns :=
              some (pySetDiffList requiredList (df.cols.map normalizeColumn))
            extra_columns := none
            missing_values := none
            non_integer_age := none
            age_outliers := none
            duplicates := none } := by
  by_cases hreq : requiredList.all (fun c => (df.cols.map normalizeColumn).contains c) = true
  · exfalso
    simp only [validatePre, hreq, if_true] at h
    split at h <;> simp at h
  · rw [Bool.not_eq_true] at hreq
    simp only [validatePre, hreq, Bool.false_eq_true, if_false, PreVal.rejected.injEq] at h
    exact ⟨hreq, h.2.symm, h.1.symm⟩

theorem validatePre_raised_inv (df : DataFrame) (e : PyError) (df1 df2 : DataFrame)
    (h : validatePre df = .raised e df1 df2) :
    requiredList.all (fun c => (df.cols.map normalizeColumn).contains c) = true ∧
    df1 = ⟨df.cols.map normalizeColumn, df.rows⟩ ∧
    df2 = (if pyStrictSuperset (df.cols.map normalizeColumn) requiredList = true then
             pruneTo ⟨df.cols.map normalizeColumn, df.rows⟩ requiredList
           else ⟨df.cols.map normalizeColumn, df.rows⟩) ∧
    ageOutlierCheck (getCol df2 "age") = .error e := by
  by_cases hreq : requiredList.all (fun c => (df.cols.map normalizeColumn).contains c) = true
  · simp only [validatePre, hreq, if_true] at h
    split at h
    · rename_i e' heq
      rw [PreVal.raised.injEq] at h
      obtain ⟨he, h1, h2⟩ := h
      subst he
      rw [h2] at heq
      exact ⟨hreq, h1.symm, h2.symm, heq⟩
    · simp at h
  · rw [Bool.not_eq_true] at hreq
    simp only [validatePre, hreq, Bool.false_eq_true, if_false] at h
    simp at h

theorem validatePre_checked_inv (df : DataFrame) (rep : Report) (df1 df2 : DataFrame)
    (he : Bool) (h : validatePre df = .checked rep df1 df2 he) :
    requiredList.all (fun c => (df.cols.map normalizeColumn).contains c) = true ∧
    df1 = ⟨df.cols.map normalizeColumn, df.rows⟩ ∧
    he = pyStrictSuperset (df.cols.map normalizeColumn) requiredList ∧
    df2 = (if he = true then pruneTo ⟨df.cols.map normalizeColumn, df.rows⟩ requiredList
           else ⟨df.cols.map normalizeColumn, df.rows⟩) ∧
    ∃ outliers, ageOutlierCheck (getCol df2 "age") = .ok outliers ∧
      rep = { missing_required_columns := none
              extra_columns :=
                if he = true then some (pySetDiffList df2.cols requiredList) else none
              missing_values :=
                if (getCol df2 "first_name").any Cell.isNull
                    || (getCol df2 "last_name").any Cell.isNull then
                  some [(getCol df2 "first_name").countP Cell.isNull,
                        (getCol df2 "last_name").countP Cell.isNull]
                else none
              non_integer_age :=
                if (getCol df2 "age").all (fun c => pyIsDigit (pyStrOfCell c)) then none
                else some ((getCol df2 "age").filter (fun c => !pyIsDigit (pyStrOfCell c)))
              age_outliers := outliers
              duplicates := none } := by
  by_cases hreq : requiredList.all (fun c => (df.cols.map normalizeColumn).contains c) = true
  · simp only [validatePre, hreq, if_true] at h
    split at h
    · simp at h
    · rename_i outliers heq
      rw [PreVal.checked.injEq] at h
      obtain ⟨hrep, h1, h2, h3⟩ := h
      subst h3
      refine ⟨hreq, h1.symm, rfl, h2.symm, outliers, ?_, ?_⟩
      · rw [h2] at heq
        exact heq
      · rw [← hrep, h2]
  · rw [Bool.not_eq_true] at hreq
    simp only [validatePre, hreq, Bool.false_eq_true, if_false] at h
    simp at h

/-- The computed form of `validatePre` when the required-column check fails:
the early return of `csv_processor.py:121-125`. -/
theorem validatePre_of_missing (df : DataFrame)
    (hmiss : requiredList.all (fun c => (df.cols.map normalizeColumn).contains c) = false) :
    validatePre df = .rejected
      { missing_required_columns :=
          some (pySetDiffList requiredList (df.cols.map normalizeColumn))
        extra_columns := none
        missing_values := none
        non_integer_age := none
        age_outliers := none
        duplicates := none }
      ⟨df.cols.map normalizeColumn, df.rows⟩ := by
  simp only [validatePre, hmiss, Bool.false_eq_true, if_false]

theorem list_any_map {α β : Type} (f : α → β) (l : List α) (p : β → Bool) :
    (l.map f).any p = l.any (fun a => p (f a)) := by
  induction l with
  | nil => rfl
  | cons a as ih => simp [List.any_cons, ih]

theorem list_any_or {α : Type} (l : List α) (f g : α → Bool) :
    (l.any f || l.any g) = l.any (fun x => f x || g x) := by
  induction l with
  | nil => rfl
  | cons a as ih =>
    simp only [List.any_cons, ← ih]
    cases f a <;> cases g a <;> simp

theorem zip_zip_filter_map (age : List Cell) (f g : Cell → Bool) :
    ((((age.zip (age.map f)).zip (age.map g)).filter (fun p => p.1.2 || p.2)).map
        (fun p => p.1.1))
      = age.filter (fun c => f c || g c) := by
  induction age with
  | nil => rfl
  | cons a as ih =>
    by_cases h : (f a || g a) = true
    · simp only [List.map_cons, List.zip_cons_cons, List.filter_cons, h, if_true,
        List.map_cons, ih]
    · simp only [List.map_cons, List.zip_cons_cons, List.filter_cons, h,
        Bool.false_eq_true, if_false, ih]

theorem ageOutlierCheck_of_no_str (age : List Cell) (h : ∀ c ∈ age, c.isStr = false) :
    ageOutlierCheck age
      = .ok (if age.any ageOutlier then some (age.filter ageOutlier) else none) := by
  have hlt : age.mapM (fun c => cellLtInt c 0)
      = .ok (age.map (fun c => match c with | .int n => decide (n < 0) | _ => false)) := by
    refine list_mapM_ok_of_forall _ _ _ ?_
    intro c hc
    cases c with
    | str s => exact absurd (h (Cell.str s) hc) (by simp [Cell.isStr])
    | int n => rfl
    | null => rfl
  have hgt : age.mapM (fun c => cellGtInt c 120)
      = .ok (age.map (fun c => match c with | .int n => decide (120 < n) | _ => false)) := by
    refine list_mapM_ok_of_forall _ _ _ ?_
    intro c hc
    cases c with
    | str s => exact absurd (h (Cell.str s) hc) (by simp [Cell.isStr])
    | int n => simp [cellGtInt]
    | null => rfl
  have hcond : ((age.map (fun c => match c with | Cell.int n => decide (n < 0) | _ => false)).any id
        || (age.map (fun c => match c with | Cell.int n => decide (120 < n) | _ => false)).any id)
      = age.any ageOutlier := by
    rw [list_any_map, list_any_map, list_any_or]
    congr 1
    funext c
    cases c <;> simp [ageOutlier]
  have hfilt : ((((age.zip (age.map (fun c => match c with | Cell.int n => decide (n < 0) | _ => false))).zip
          (age.map (fun c => match c with | Cell.int n => decide (120 < n) | _ => false))).filter
          (fun p => p.1.2 || p.2)).map (fun p => p.1.1))
      = age.filter ageOutlier := by
    refine (zip_zip_filter_map age _ _).trans ?_
    congr 1
    funext c
    cases c <;> simp [ageOutlier]
  rw [ageOutlierCheck, hlt]
  simp only [Bind.bind, Except.bind]
  rw [hgt]
  simp only [Bind.bind, Except.bind]
  rw [hfilt, hcond]
  split <;> rfl

/-! ### Claim theorems -/

/-- Claim C1, counterexample.  For the table whose sole column normalizes to
last_name, `validate_data` rejects with `missing_required_columns` listing
exactly the two missing names — but in the model's realizable layout of the
Python set difference the list is not sorted (no layout of a CPython set is
guaranteed sorted), refuting the claim that the entry is the sorted list of
the missing names. -/
theorem C1_counterexample :
    (validateData ⟨["Last Name"], [[Cell.str "x"]]⟩).verdict =
      .ok (false, { missing_required_columns := some ["first_name", "age"]
                    extra_columns := none
                    missing_values := none
                    non_integer_age := none
                    age_outliers := none
                    duplicates := none })
    ∧ pySortedStrings ["first_name", "age"] = false
    ∧ pySortedStrings ["age", "first_name"] = true := by
  exact ⟨by decide, by decide, by decide⟩

/-- Claim C1, amended.  For every table that, after column-name
normalization, lacks a required column, `validate_data` returns
`accepted=false` and a report whose only key is `missing_required_columns`,
listing exactly the missing names (in unspecified order, not necessarily
sorted); no further checks run and no remediation is attempted — the rows
are left untouched. -/
theorem C1_missing_required_amended (df : DataFrame)
    (hmiss : requiredList.all (fun c => (df.cols.map normalizeColumn).contains c) = false) :
    ∃ missing, (validateData df).verdict =
        .ok (false, { missing_required_columns := some missing
                      extra_columns := none
                      missing_values := none
                      non_integer_age := none
                      age_outliers := none
                      duplicates := none })
      ∧ (∀ c, c ∈ missing ↔ c ∈ requiredList ∧ c ∉ df.cols.map normalizeColumn)
      ∧ (validateData df).callerTable = ⟨df.cols.map normalizeColumn, df.rows⟩
      ∧ (validateData df).finalTable.rows = df.rows := by
  have hpre := validatePre_of_missing df hmiss
  refine ⟨pySetDiffList requiredList (df.cols.map normalizeColumn), ?_, ?_, ?_, ?_⟩
  · simp only [validateData, hpre]
  · intro c
    have he : requiredList.eraseDups = requiredList := by decide
    simp only [pySetDiffList, he, List.mem_filter, Bool.not_eq_eq_eq_not, Bool.not_true,
      List.contains, List.elem_eq_mem, decide_eq_false_iff_not]
  · simp only [validateData, hpre]
  · simp only [validateData, hpre]

/-- Claim C1, witness for the amended theorem at a concrete rejected
table. -/
theorem C1_missing_required_witness :
    ∃ missing, (validateData ⟨["Last Name"], [[Cell.str "x"]]⟩).verdict =
        .ok (false, { missing_required_columns := some missing
                      extra_columns := none
                      missing_values := none
                      non_integer_age := none
                      age_outliers := none
                      duplicates := none })
      ∧ (∀ c, c ∈ missing ↔ c ∈ requiredList ∧
          c ∉ (⟨["Last Name"], [[Cell.str "x"]]⟩ : DataFrame).cols.map normalizeColumn)
      ∧ (validateData ⟨["Last Name"], [[Cell.str "x"]]⟩).callerTable =
          ⟨(⟨["Last Name"], [[Cell.str "x"]]⟩ : DataFrame).cols.map normalizeColumn,
           [[Cell.str "x"]]⟩
      ∧ (validateData ⟨["Last Name"], [[Cell.str "x"]]⟩).finalTable.rows =
          [[Cell.str "x"]] :=
  C1_missing_required_amended ⟨["Last Name"], [[Cell.str "x"]]⟩ (by decide)

/-- Claim C2, code bug.  For a table with the required columns plus an
`email` column, the validated table is pruned to exactly the required
schema, but the report's `extra_columns` entry is the empty list rather than
the pruned names: the source computes
`set(df.columns).difference(required)` only after `df` was already pruned
(`csv_processor.py:128-131`), so the recorded difference is always empty,
contradicting the function's own docstring (extra columns that were present
in the data). -/
theorem C2_extra_columns_bug :
    (validateData ⟨["first_name", "last_name", "age", "email"],
        [[Cell.str "a", Cell.str "b", Cell.int 30, Cell.str "e"]]⟩).verdict =
      .ok (true, { missing_required_columns := none
                   extra_columns := some []
                   missing_values := none
                   non_integer_age := none
                   age_outliers := none
                   duplicates := none })
    ∧ (validateData ⟨["first_name", "last_name", "age", "email"],
        [[Cell.str "a", Cell.str "b", Cell.int 30, Cell.str "e"]]⟩).finalTable.cols =
      ["first_name", "last_name", "age"]
    ∧ (validateData ⟨["first_name", "last_name", "age", "email"],
        [[Cell.str "a", Cell.str "b", Cell.int 30, Cell.str "e"]]⟩).callerTable.cols =
      ["first_name", "last_name", "age", "email"] := by
  exact ⟨by decide, by decide, by decide⟩

/-- Claim C6, code bug.  A rejected file (its table misses the `age` column)
is not relocated anywhere and no metadata artifact is written: the rejected
branch of `process_all_files` reads `self.error_dir`
(`csv_processor.py:283`), an attribute `__init__` never assigns, so the
branch raises `AttributeError`, which the per-file handler swallows after
logging. -/
theorem C6_rejected_file_bug :
    (mkProcessor "input" "output" "processed" "metadata").error_dir = none
    ∧ processFile (mkProcessor "input" "output" "processed" "metadata")
        (.table ⟨["first_name", "last_name"], [[Cell.str "Ann", Cell.str "Lee"]]⟩)
      = failedResult
    ∧ failedResult.movedTo = none
    ∧ failedResult.metadataWritten = none
    ∧ failedResult.failedLogged = true := by
  exact ⟨rfl, by decide, rfl, rfl, rfl⟩

/-- Claim C7, confirmed.  Every file is processed inside its own
`try`/`except`, so the outcome list of a batch is exactly the per-file map —
one file's fault cannot change any other file's outcome — and in the
concrete three-file batch whose second file is unreadable, the first and
third files still produce their transformed outputs and their metadata
artifacts while the second is logged as failed. -/
theorem C7_per_file_isolation :
    (∀ (p : Processor) (files : List FileInput),
        (processAllFiles p files).fileResults = files.map (processFile p))
    ∧ (processAllFiles (mkProcessor "input" "output" "processed" "metadata")
        [.table ⟨["first_name", "last_name", "age"],
            [[Cell.str "Ann", Cell.str "Lee", Cell.int 30]]⟩,
         .unreadable,
         .table ⟨["first_name", "last_name", "age"],
            [[Cell.str "Bo", Cell.str "Ng", Cell.int 41]]⟩]).fileResults
      = [⟨some ⟨["First Name", "Last Name", "Age", "Full Name"],
              [[Cell.str "Ann", Cell.str "Lee", Cell.int 30, Cell.str "Ann Lee"]]⟩,
          some ⟨["First Name", "Last Name", "Age", "Full Name"],
              [[Cell.str "Ann", Cell.str "Lee", Cell.int 30, Cell.str "Ann Lee"]]⟩,
          some "processed", some ⟨"processed", 1, Report.empty⟩, false⟩,
         failedResult,
         ⟨some ⟨["First Name", "Last Name", "Age", "Full Name"],
              [[Cell.str "Bo", Cell.str "Ng", Cell.int 41, Cell.str "Bo Ng"]]⟩,
          some ⟨["First Name", "Last Name", "Age", "Full Name"],
              [[Cell.str "Bo", Cell.str "Ng", Cell.int 41, Cell.str "Bo Ng"]]⟩,
          some "processed", some ⟨"processed", 1, Report.empty⟩, false⟩] := by
  exact ⟨fun _ _ => rfl, by decide⟩

/-- Claim C8, code bug.  `process_all_files` never returns normally: after
the loop it calls `self.save_metadata_collection(...)`
(`csv_processor.py:306`), a method the class does not define, raising
`AttributeError` outside every `try` block — for every batch, including the
empty one.  Moreover, even if that call existed, a batch with no accepted
file would reach `pd.concat([])`, which raises `ValueError` instead of
returning an empty result. -/
theorem C8_never_returns_bug :
    (∀ (p : Processor) (files : List FileInput),
        (processAllFiles p files).finalReturn = .error .attributeError)
    ∧ pdConcatIgnoreIndex [] = .error .valueError := by
  exact ⟨fun _ _ => rfl, rfl⟩

/-- Claim C5, counterexample.  Normalization does not canonicalize
surrounding whitespace or hyphen separators: the label written as
first-name surrounded by spaces normalizes to an underscore-wrapped
hyphenated name, not to first_name, and a table using that label for its
first column is rejected for a missing `first_name`. -/
theorem C5_counterexample :
    normalizeColumn " first-name " = "_first-name_"
    ∧ "_first-name_" ≠ "first_name"
    ∧ (validateData ⟨[" first-name ", "last_name", "age"],
        [[Cell.str "a", Cell.str "b", Cell.int 1]]⟩).verdict =
      .ok (false, { missing_required_columns := some ["first_name"]
                    extra_columns := none
                    missing_values := none
                    non_integer_age := none
                    age_outliers := none
                    duplicates := none }) := by
  exact ⟨by decide, by decide, by decide⟩

/-- Claim C5, amended.  Normalization maps two labels to the same canonical
name whenever they agree character by character up to letter case and the
space/underscore distinction (so First Name and first_name both become
first_name and pass the required-column check), but it does not canonicalize
surrounding whitespace or hyphens: the spaced hyphenated variant normalizes
to a different name. -/
theorem C5_normalization_amended :
    (∀ s t : String, s.data.map charCanon = t.data.map charCanon →
        normalizeColumn s = normalizeColumn t)
    ∧ normalizeColumn "First Name" = "first_name"
    ∧ normalizeColumn "first_name" = "first_name"
    ∧ normalizeColumn " first-name " = "_first-name_" := by
  refine ⟨?_, by decide, by decide, by decide⟩
  intro s t h
  have key : ∀ u : String, pyReplaceSpaceUnderscore (pyLower u) = ⟨u.data.map charCanon⟩ := by
    intro u
    unfold pyReplaceSpaceUnderscore pyLower
    rw [show (⟨u.data.map Char.toLower⟩ : String).data = u.data.map Char.toLower from rfl]
    rw [List.map_map]
    rfl
  unfold normalizeColumn
  rw [key s, key t, h]

/-- Claim C5, witness: the amended congruence applied to the two concrete
labels of the claim. -/
theorem C5_normalization_witness :
    normalizeColumn "First Name" = normalizeColumn "first_name" :=
  C5_normalization_amended.1 "First Name" "first_name" (by decide)

/-- Claim C3, counterexample.  An age of -5 is reported under both
`non_integer_age` (its decimal string has a minus sign, failing `isdigit`)
and `age_outliers` (it is below 0) — the non-digit values are not excluded
from the range check — and an age held as the string abc makes the range
check raise `TypeError`, so the age checks are not raise-free either. -/
theorem C3_counterexample :
    (validateData ⟨["first_name", "last_name", "age"],
        [[Cell.str "a", Cell.str "b", Cell.int (-5)]]⟩).verdict =
      .ok (true, { missing_required_columns := none
                   extra_columns := none
                   missing_values := none
                   non_integer_age := some [Cell.int (-5)]
                   age_outliers := some [Cell.int (-5)]
                   duplicates := none })
    ∧ (validateData ⟨["first_name", "last_name", "age"],
        [[Cell.str "a", Cell.str "b", Cell.str "abc"]]⟩).verdict = .error .typeError := by
  exact ⟨by decide, by decide⟩

/-- Claim C3, amended.  For every well-formed table with the required
columns whose age column holds no Python string (integers and missing
values only — with a string present the range comparison raises, see the
counterexample), the age checks complete and the verdict is accepted;
`non_integer_age` lists verbatim the age values whose string form is not
entirely decimal digits, and `age_outliers` lists verbatim the age values
outside the range from 0 to 120 — without excluding the former from the
latter, so a negative integer appears under both keys. -/
theorem C3_age_checks_amended (df : DataFrame) (hWF : df.WF)
    (hreq : requiredList.all (fun c => (df.cols.map normalizeColumn).contains c) = true)
    (hnum : ∀ c ∈ getCol ⟨df.cols.map normalizeColumn, df.rows⟩ "age", c.isStr = false) :
    ∃ rep, (validateData df).verdict = .ok (true, rep)
      ∧ rep.non_integer_age =
          (if (getCol ⟨df.cols.map normalizeColumn, df.rows⟩ "age").all
              (fun c => pyIsDigit (pyStrOfCell c)) then none
           else some ((getCol ⟨df.cols.map normalizeColumn, df.rows⟩ "age").filter
              (fun c => !pyIsDigit (pyStrOfCell c))))
      ∧ rep.age_outliers =
          (if (getCol ⟨df.cols.map normalizeColumn, df.rows⟩ "age").any ageOutlier then
             some ((getCol ⟨df.cols.map normalizeColumn, df.rows⟩ "age").filter ageOutlier)
           else none) := by
  have hWF1 : (⟨df.cols.map normalizeColumn, df.rows⟩ : DataFrame).WF := by
    intro r hr
    simpa using hWF r hr
  have hage : ∀ d2 : DataFrame,
      d2 = (if pyStrictSuperset (df.cols.map normalizeColumn) requiredList = true
            then pruneTo ⟨df.cols.map normalizeColumn, df.rows⟩ requiredList
            else ⟨df.cols.map normalizeColumn, df.rows⟩) →
      getCol d2 "age" = getCol ⟨df.cols.map normalizeColumn, df.rows⟩ "age" := by
    intro d2 hd2
    rw [hd2]
    by_cases hsup : pyStrictSuperset (df.cols.map normalizeColumn) requiredList = true
    · rw [if_pos hsup]
      exact getCol_pruneTo _ hWF1 requiredList "age" (by decide)
    · rw [if_neg hsup]
  cases p : validatePre df with
  | rejected rep d1 =>
    have hmiss := (validatePre_rejected_inv df rep d1 p).1
    rw [hreq] at hmiss
    exact absurd hmiss (by simp)
  | raised e d1 d2 =>
    obtain ⟨-, -, hd2, herr⟩ := validatePre_raised_inv df e d1 d2 p
    rw [hage d2 hd2, ageOutlierCheck_of_no_str _ hnum] at herr
    exact absurd herr (by simp)
  | checked rep d1 d2 he =>
    obtain ⟨-, hd1, hhe, hd2, outliers, hout, hrep⟩ := validatePre_checked_inv df rep d1 d2 he p
    have hd2' : d2 = (if pyStrictSuperset (df.cols.map normalizeColumn) requiredList = true
        then pruneTo ⟨df.cols.map normalizeColumn, df.rows⟩ requiredList
        else ⟨df.cols.map normalizeColumn, df.rows⟩) := by
      rw [hd2, hhe]
    have hcol := hage d2 hd2'
    rw [hcol, ageOutlierCheck_of_no_str _ hnum] at hout
    have houtval := (Except.ok.inj hout).symm
    have hv : ∃ rep2 : Report, (validateData df).verdict = .ok (true, rep2)
        ∧ rep2.non_integer_age = rep.non_integer_age
        ∧ rep2.age_outliers = rep.age_outliers := by
      simp only [validateData, p]
      by_cases hflag : (duplicatedFlags d2.rows).any id = true
      · rw [if_pos hflag]
        exact ⟨_, rfl, rfl, rfl⟩
      · rw [if_neg hflag]
        exact ⟨_, rfl, rfl, rfl⟩
    obtain ⟨rep2, hv1, hv2, hv3⟩ := hv
    refine ⟨rep2, hv1, ?_, ?_⟩
    · rw [hv2, hrep]
      rw [show ({ missing_required_columns := none
                  extra_columns := if he = true then some (pySetDiffList d2.cols requiredList)
                    else none
                  missing_values := if (getCol d2 "first_name").any Cell.isNull
                      || (getCol d2 "last_name").any Cell.isNull then
                    some [(getCol d2 "first_name").countP Cell.isNull,
                          (getCol d2 "last_name").countP Cell.isNull] else none
                  non_integer_age := if (getCol d2 "age").all
                      (fun c => pyIsDigit (pyStrOfCell c)) then none
                    else some ((getCol d2 "age").filter (fun c => !pyIsDigit (pyStrOfCell c)))
                  age_outliers := outliers
                  duplicates := none } : Report).non_integer_age
          = (if (getCol d2 "age").all (fun c => pyIsDigit (pyStrOfCell c)) then none
             else some ((getCol d2 "age").filter (fun c => !pyIsDigit (pyStrOfCell c))))
          from rfl]
      rw [hcol]
    · rw [hv3, hrep]
      rw [show ({ missing_required_columns := none
                  extra_columns := if he = true then some (pySetDiffList d2.cols requiredList)
                    else none
                  missing_values := if (getCol d2 "first_name").any Cell.isNull
                      || (getCol d2 "last_name").any Cell.isNull then
                    some [(getCol d2 "first_name").countP Cell.isNull,
                          (getCol d2 "last_name").countP Cell.isNull] else none
                  non_integer_age := if (getCol d2 "age").all
                      (fun c => pyIsDigit (pyStrOfCell c)) then none
                    else some ((getCol d2 "age").filter (fun c => !pyIsDigit (pyStrOfCell c)))
                  age_outliers := outliers
                  duplicates := none } : Report).age_outliers = outliers from rfl]
      exact houtval

/-- Claim C3, witness for the amended theorem at a concrete table whose
ages are -5 (in both report lists) and 30 (in neither). -/
theorem C3_age_checks_witness :
    ∃ rep, (validateData ⟨["first_name", "last_name", "age"],
        [[Cell.str "a", Cell.str "b", Cell.int (-5)],
         [Cell.str "c", Cell.str "d", Cell.int 30]]⟩).verdict = .ok (true, rep)
      ∧ rep.non_integer_age =
          (if (getCol ⟨["first_name", "last_name", "age"].map normalizeColumn,
              [[Cell.str "a", Cell.str "b", Cell.int (-5)],
               [Cell.str "c", Cell.str "d", Cell.int 30]]⟩ "age").all
              (fun c => pyIsDigit (pyStrOfCell c)) then none
           else some ((getCol ⟨["first_name", "last_name", "age"].map normalizeColumn,
              [[Cell.str "a", Cell.str "b", Cell.int (-5)],
               [Cell.str "c", Cell.str "d", Cell.int 30]]⟩ "age").filter
              (fun c => !pyIsDigit (pyStrOfCell c))))
      ∧ rep.age_outliers =
          (if (getCol ⟨["first_name", "last_name", "age"].map normalizeColumn,
              [[Cell.str "a", Cell.str "b", Cell.int (-5)],
               [Cell.str "c", Cell.str "d", Cell.int 30]]⟩ "age").any ageOutlier then
             some ((getCol ⟨["first_name", "last_name", "age"].map normalizeColumn,
              [[Cell.str "a", Cell.str "b", Cell.int (-5)],
               [Cell.str "c", Cell.str "d", Cell.int 30]]⟩ "age").filter ageOutlier)
           else none) :=
  C3_age_checks_amended
    ⟨["first_name", "last_name", "age"],
     [[Cell.str "a", Cell.str "b", Cell.int (-5)], [Cell.str "c", Cell.str "d", Cell.int 30]]⟩
    (by decide) (by decide) (by decide)

/-- Claim C4, counterexample.  A table with the required columns and a
full-row duplicate whose age is held as a string never reaches the
duplicate step: the age range check raises `TypeError` first, so no report
is produced and no rows are removed (the caller still holds both rows). -/
theorem C4_counterexample :
    ¬ ([[Cell.str "a", Cell.str "b", Cell.str "x"],
        [Cell.str "a", Cell.str "b", Cell.str "x"]] : List (List Cell)).Nodup
    ∧ (validateData ⟨["first_name", "last_name", "age"],
        [[Cell.str "a", Cell.str "b", Cell.str "x"],
         [Cell.str "a", Cell.str "b", Cell.str "x"]]⟩).verdict = .error .typeError
    ∧ (validateData ⟨["first_name", "last_name", "age"],
        [[Cell.str "a", Cell.str "b", Cell.str "x"],
         [Cell.str "a", Cell.str "b", Cell.str "x"]]⟩).callerTable.rows.length = 2 := by
  exact ⟨by decide, by decide, by decide⟩

/-- Claim C4, amended.  For every table with the required columns that
contains full-row duplicates and on which `validate_data` returns (rather
than raising from the age range check), the verdict is accepted, the
`duplicates` entry holds a positive count equal to the number of rows
removed, the validated table's row count is the input row count minus that
count, and its rows are the stage rows (the input rows, or their pruned
projection when extra columns were present) deduplicated keeping the first
occurrence of each row. -/
theorem C4_duplicates_amended (df : DataFrame) (b : Bool) (rep : Report)
    (hreq : requiredList.all (fun c => (df.cols.map normalizeColumn).contains c) = true)
    (hdup : ¬ df.rows.Nodup)
    (hok : (validateData df).verdict = .ok (b, rep)) :
    b = true ∧
    ∃ k, rep.duplicates = some k ∧ 0 < k
      ∧ (validateData df).finalTable.rows.length + k = df.rows.length
      ∧ ∃ stage : List (List Cell), stage.length = df.rows.length
          ∧ (stage = df.rows
             ∨ stage = (pruneTo ⟨df.cols.map normalizeColumn, df.rows⟩ requiredList).rows)
          ∧ (validateData df).finalTable.rows = stage.eraseDups := by
  cases p : validatePre df with
  | rejected rep0 d1 =>
    have hmiss := (validatePre_rejected_inv df rep0 d1 p).1
    rw [hreq] at hmiss
    exact absurd hmiss (by simp)
  | raised e d1 d2 =>
    simp only [validateData, p] at hok
    exact absurd hok (by simp)
  | checked rep0 d1 d2 he =>
    obtain ⟨-, hd1, hhe, hd2, -, -, hrep0⟩ := validatePre_checked_inv df rep0 d1 d2 he p
    have hrows : d2.rows = df.rows
        ∨ d2.rows = (pruneTo ⟨df.cols.map normalizeColumn, df.rows⟩ requiredList).rows := by
      by_cases hhe2 : he = true
      · right
        rw [hd2, if_pos hhe2]
      · left
        rw [hd2, if_neg hhe2]
    have hlen : d2.rows.length = df.rows.length := by
      rcases hrows with h | h <;> rw [h]
      simp [pruneTo]
    have hnd2 : ¬ d2.rows.Nodup := by
      rcases hrows with h | h <;> rw [h]
      · exact hdup
      · simp only [pruneTo]
        intro hcon
        exact hdup (List.Nodup.of_map _ hcon)
    have hflag := any_duplicatedFlags_of_not_nodup _ hnd2
    simp only [validateData, p] at hok ⊢
    rw [if_pos hflag] at hok ⊢
    have hpair := Except.ok.inj hok
    have hb : b = true := (congrArg Prod.fst hpair).symm
    have hrepEq : rep = { rep0 with duplicates := some ((duplicatedFlags d2.rows).count true) } :=
      (congrArg Prod.snd hpair).symm
    refine ⟨hb, (duplicatedFlags d2.rows).count true, ?_, ?_, ?_, d2.rows, hlen, hrows, ?_⟩
    · rw [hrepEq]
    · have htrue : true ∈ duplicatedFlags d2.rows := by
        rcases List.any_eq_true.mp hflag with ⟨x, hx, hpx⟩
        cases x
        · exact absurd hpx (by simp)
        · exact hx
      exact List.count_pos_iff.mpr htrue
    · rw [← hlen]
      exact dropDuplicates_length_add_count d2.rows
    · exact dropDuplicates_eq_eraseDups d2.rows

/-- Claim C4, witness for the amended theorem: a two-row table whose rows
are identical yields `duplicates = 1` and one remaining row. -/
theorem C4_duplicates_witness :
    true = true ∧
    ∃ k, ({ missing_required_columns := none
            extra_columns := none
            missing_values := none
            non_integer_age := none
            age_outliers := none
            duplicates := some 1 } : Report).duplicates = some k ∧ 0 < k
      ∧ (validateData ⟨["first_name", "last_name", "age"],
          [[Cell.str "a", Cell.str "b", Cell.int 30],
           [Cell.str "a", Cell.str "b", Cell.int 30]]⟩).finalTable.rows.length + k =
          (⟨["first_name", "last_name", "age"],
            [[Cell.str "a", Cell.str "b", Cell.int 30],
             [Cell.str "a", Cell.str "b", Cell.int 30]]⟩ : DataFrame).rows.length
      ∧ ∃ stage : List (List Cell),
          stage.length = (⟨["first_name", "last_name", "age"],
            [[Cell.str "a", Cell.str "b", Cell.int 30],
             [Cell.str "a", Cell.str "b", Cell.int 30]]⟩ : DataFrame).rows.length
          ∧ (stage = (⟨["first_name", "last_name", "age"],
              [[Cell.str "a", Cell.str "b", Cell.int 30],
               [Cell.str "a", Cell.str "b", Cell.int 30]]⟩ : DataFrame).rows
             ∨ stage = (pruneTo ⟨(⟨["first_name", "last_name", "age"],
              [[Cell.str "a", Cell.str "b", Cell.int 30],
               [Cell.str "a", Cell.str "b", Cell.int 30]]⟩ : DataFrame).cols.map
                normalizeColumn,
              [[Cell.str "a", Cell.str "b", Cell.int 30],
               [Cell.str "a", Cell.str "b", Cell.int 30]]⟩ requiredList).rows)
          ∧ (validateData ⟨["first_name", "last_name", "age"],
              [[Cell.str "a", Cell.str "b", Cell.int 30],
               [Cell.str "a", Cell.str "b", Cell.int 30]]⟩).finalTable.rows =
            stage.eraseDups :=
  C4_duplicates_amended
    ⟨["first_name", "last_name", "age"],
     [[Cell.str "a", Cell.str "b", Cell.int 30], [Cell.str "a", Cell.str "b", Cell.int 30]]⟩
    true
    { missing_required_columns := none
      extra_columns := none
      missing_values := none
      non_integer_age := none
      age_outliers := none
      duplicates := some 1 }
    (by decide) (by decide) (by decide)

theorem getCol_length (df : DataFrame) (n : String) :
    (getCol df n).length = df.rows.length := by
  simp [getCol]

/-- Claim C9, counterexample.  Both stages mutate the caller's table:
`validate_data` renames the caller's columns in place (and, absent extra
columns, drops duplicate rows in place), and `process_data` adds the
`full_name` column and retitles every column on the very object it was
given. -/
theorem C9_counterexample :
    (validateData ⟨["First Name", "last_name", "age"],
        [[Cell.str "a", Cell.str "b", Cell.int 30]]⟩).callerTable
      ≠ ⟨["First Name", "last_name", "age"], [[Cell.str "a", Cell.str "b", Cell.int 30]]⟩
    ∧ processDataCaller ⟨["first_name", "last_name", "age"],
        [[Cell.str "a", Cell.str "b", Cell.int 30]]⟩
      ≠ ⟨["first_name", "last_name", "age"], [[Cell.str "a", Cell.str "b", Cell.int 30]]⟩ := by
  exact ⟨by decide, by decide⟩

/-- Claim C9, amended.  `validate_data` always leaves the caller holding a
table whose column names are the normalized originals (an in-place rename)
and whose row count is at most the original (in-place deduplication may have
removed rows); `process_data` mutates its argument in place — after a
successful call the caller's table is the returned one — but it does
preserve the row count. -/
theorem C9_mutation_amended :
    (∀ df : DataFrame, (validateData df).callerTable.cols = df.cols.map normalizeColumn
        ∧ (validateData df).callerTable.rows.length ≤ df.rows.length)
    ∧ (∀ (df out : DataFrame), processData df = .ok out →
        processDataCaller df = out ∧ out.rows.length = df.rows.length) := by
  constructor
  · intro df
    cases p : validatePre df with
    | rejected rep d1 =>
      obtain ⟨-, hd1, -⟩ := validatePre_rejected_inv df rep d1 p
      simp only [validateData, p]
      rw [hd1]
      exact ⟨rfl, Nat.le_refl _⟩
    | raised e d1 d2 =>
      obtain ⟨-, hd1, -, -⟩ := validatePre_raised_inv df e d1 d2 p
      simp only [validateData, p]
      rw [hd1]
      exact ⟨rfl, Nat.le_refl _⟩
    | checked rep d1 d2 he =>
      obtain ⟨-, hd1, hhe, hd2, -⟩ := validatePre_checked_inv df rep d1 d2 he p
      simp only [validateData, p]
      by_cases hflag : (duplicatedFlags d2.rows).any id = true
      · rw [if_pos hflag]
        by_cases hhe2 : he = true
        · rw [if_pos hhe2, hd1]
          exact ⟨rfl, Nat.le_refl _⟩
        · rw [if_neg hhe2]
          have hd2' : d2 = ⟨df.cols.map normalizeColumn, df.rows⟩ := by
            rw [hd2, if_neg hhe2]
          constructor
          · show d2.cols = df.cols.map normalizeColumn
            rw [hd2']
          · show (dropDuplicates d2.rows).length ≤ df.rows.length
            have hcnt := dropDuplicates_length_add_count d2.rows
            have hr : d2.rows = df.rows := by rw [hd2']
            rw [hr] at hcnt ⊢
            omega
      · rw [if_neg hflag]
        by_cases hhe2 : he = true
        · rw [if_pos hhe2, hd1]
          exact ⟨rfl, Nat.le_refl _⟩
        · rw [if_neg hhe2]
          have hd2' : d2 = ⟨df.cols.map normalizeColumn, df.rows⟩ := by
            rw [hd2, if_neg hhe2]
          rw [hd2']
          exact ⟨rfl, Nat.le_refl _⟩
  · intro df out h
    refine ⟨by simp [processDataCaller, h], ?_⟩
    have hfull : ∃ full,
        ((getCol df "first_name").zip (getCol df "last_name")).mapM
          (fun p => do
            let x ← pyAddCell p.1 (Cell.str " ")
            pyAddCell x p.2) = .ok full
        ∧ out = ⟨(setCol df "full_name" full).cols.map retitleColumn,
                 (setCol df "full_name" full).rows⟩ := by
      unfold processData at h
      simp only [Bind.bind, Except.bind, Pure.pure, Except.pure] at h
      split at h
      · exact absurd h (by simp)
      · rename_i full heq
        exact ⟨full, heq, (Except.ok.inj h).symm⟩
    obtain ⟨full, hm, hout⟩ := hfull
    have hfl : full.length = df.rows.length := by
      have hml := list_mapM_ok_length _ _ _ hm
      rw [hml]
      simp [List.length_zip, getCol_length]
    have hsl : (setCol df "full_name" full).rows.length = df.rows.length := by
      unfold setCol
      cases df.cols.findIdx? (fun c => c == "full_name") with
      | none => simp [List.length_zip, hfl]
      | some i => simp [List.length_zip, hfl]
    rw [hout]
    exact hsl

/-- Claim C9, witness: part one of the amended theorem at a table with a
capitalized column name, part two at a simple accepted table. -/
theorem C9_mutation_witness :
    ((validateData ⟨["First Name", "last_name", "age"],
        [[Cell.str "a", Cell.str "b", Cell.int 30]]⟩).callerTable.cols =
      ["First Name", "last_name", "age"].map normalizeColumn
    ∧ (validateData ⟨["First Name", "last_name", "age"],
        [[Cell.str "a", Cell.str "b", Cell.int 30]]⟩).callerTable.rows.length ≤ 1)
    ∧ (processDataCaller ⟨["first_name", "last_name", "age"],
          [[Cell.str "a", Cell.str "b", Cell.int 30]]⟩ =
        ⟨["First Name", "Last Name", "Age", "Full Name"],
         [[Cell.str "a", Cell.str "b", Cell.int 30, Cell.str "a b"]]⟩
      ∧ (⟨["First Name", "Last Name", "Age", "Full Name"],
          [[Cell.str "a", Cell.str "b", Cell.int 30, Cell.str "a b"]]⟩ :
            DataFrame).rows.length = 1) :=
  ⟨C9_mutation_amended.1 ⟨["First Name", "last_name", "age"],
      [[Cell.str "a", Cell.str "b", Cell.int 30]]⟩,
   C9_mutation_amended.2 ⟨["first_name", "last_name", "age"],
      [[Cell.str "a", Cell.str "b", Cell.int 30]]⟩
    ⟨["First Name", "Last Name", "Age", "Full Name"],
     [[Cell.str "a", Cell.str "b", Cell.int 30, Cell.str "a b"]]⟩ (by decide)⟩

/-- Claim C10, counterexample.  On a table with one duplicated row,
`csv_processor.py` reports `duplicates = 1` while `csv_processor2.py`
reports `duplicates = 0` (it counts `df.duplicated().sum()` only after
having dropped the duplicates), so the three drafts do not return the same
validation report. -/
theorem C10_counterexample :
    (validateData ⟨["first_name", "last_name", "age"],
        [[Cell.str "a", Cell.str "b", Cell.int 1],
         [Cell.str "a", Cell.str "b", Cell.int 1]]⟩).verdict =
      .ok (true, { missing_required_columns := none
                   extra_columns := none
                   missing_values := none
                   non_integer_age := none
                   age_outliers := none
                   duplicates := some 1 })
    ∧ (validateData2 ⟨["first_name", "last_name", "age"],
        [[Cell.str "a", Cell.str "b", Cell.int 1],
         [Cell.str "a", Cell.str "b", Cell.int 1]]⟩).verdict =
      .ok (true, { missing_required_columns := none
                   extra_columns := none
                   missing_values := none
                   non_integer_age := none
                   age_outliers := none
                   duplicates := some 0 })
    ∧ (validateDataOld ⟨["first_name", "last_name", "age"],
        [[Cell.str "a", Cell.str "b", Cell.int 1],
         [Cell.str "a", Cell.str "b", Cell.int 1]]⟩).verdict =
      (validateData2 ⟨["first_name", "last_name", "age"],
        [[Cell.str "a", Cell.str "b", Cell.int 1],
         [Cell.str "a", Cell.str "b", Cell.int 1]]⟩).verdict
    ∧ (validateData ⟨["first_name", "last_name", "age"],
        [[Cell.str "a", Cell.str "b", Cell.int 1],
         [Cell.str "a", Cell.str "b", Cell.int 1]]⟩).verdict ≠
      (validateData2 ⟨["first_name", "last_name", "age"],
        [[Cell.str "a", Cell.str "b", Cell.int 1],
         [Cell.str "a", Cell.str "b", Cell.int 1]]⟩).verdict := by
  exact ⟨by decide, by decide, by decide, by decide⟩

/-- Claim C10, amended.  The second and third drafts are identical, and on
every table all three drafts agree on the verdict flag and on every report
entry except `duplicates`: where the first draft records the positive count
of removed rows, the other two record 0. -/
theorem C10_drafts_relation_amended :
    validateData2 = validateDataOld
    ∧ ∀ df : DataFrame, (validateData2 df).verdict
        = (validateData df).verdict.map (fun pr => (pr.1, zeroDupReport pr.2)) := by
  constructor
  · rfl
  · intro df
    cases p : validatePre df with
    | raised e d1 d2 =>
      simp [validateData, validateData2, p, Except.map]
    | rejected rep d1 =>
      obtain ⟨-, -, hrep⟩ := validatePre_rejected_inv df rep d1 p
      simp only [validateData, validateData2, p, Except.map]
      rw [hrep]
      rfl
    | checked rep d1 d2 he =>
      obtain ⟨-, -, -, -, outliers, -, hrep⟩ := validatePre_checked_inv df rep d1 d2 he p
      simp only [validateData, validateData2, p]
      by_cases hflag : (duplicatedFlags d2.rows).any id = true
      · rw [if_pos hflag, if_pos hflag]
        have h0 := count_true_flags_dropDuplicates d2.rows
        simp only [Except.map, h0, zeroDupReport, Option.map_some]
        rfl
      · rw [if_neg hflag, if_neg hflag]
        simp only [Except.map]
        rw [hrep]
        rfl
